import Mathlib

/-!
Shallow embedding of the S_Chatbot RAG answer-generation core
(`core/chatbot.py` and `core/document_manager.py`).

Strings are handled through `List Char` helpers mirroring the Python
string methods used by the code (`strip`, `lower`, `split`, substring
membership, `float(...)` parsing on plain decimal notation).  LLM calls
and the vector-store upsert are external collaborators; they are
modelled as oracle values (`Except`), and the embedding records in its
result which chains were invoked.
-/

set_option autoImplicit false

namespace SChatbot

/-- A conversation turn: `(user_message, ai_message)`. -/
abbrev Turn := String × String

/-! ## Python string-method helpers -/

/-- Python `str.strip()` on the character list: drop leading and trailing
whitespace. -/
def pyStrip (s : List Char) : List Char :=
  ((s.dropWhile Char.isWhitespace).reverse.dropWhile Char.isWhitespace).reverse

/-- Python `str.lower()` on the character list. -/
def pyLower (s : List Char) : List Char :=
  s.map Char.toLower

/-- Python substring membership `needle in hay` (contiguous substring). -/
def pyIn (needle hay : List Char) : Bool :=
  hay.tails.any (fun t => needle.isPrefixOf t)

/-- Split a character list at every character satisfying `p`; the result
always has at least one (possibly empty) segment, like Python `str.split`
with an explicit separator. -/
def splitWhen (p : Char → Bool) : List Char → List (List Char)
  | [] => [[]]
  | a :: rest =>
    let r := splitWhen p rest
    if p a then [] :: r
    else
      match r with
      | [] => [[a]]
      | h :: t => (a :: h) :: t

/-- Python `str.split("\n")`. -/
def splitNewlines (s : List Char) : List (List Char) :=
  splitWhen (fun c => c == '\n') s

/-- Python no-argument `str.split()`: split on whitespace runs, discarding
empty segments. -/
def pyWords (s : List Char) : List (List Char) :=
  (splitWhen Char.isWhitespace s).filter (fun w => !w.isEmpty)

/-- Numeric value of a list of decimal digit characters. -/
def digitsVal (ds : List Char) : Nat :=
  ds.foldl (fun acc c => 10 * acc + (c.toNat - 48)) 0

/-- Python `min(a, b)` on rationals (the second argument is returned only
when it is strictly smaller). -/
def pyMin (a b : ℚ) : ℚ :=
  if b < a then b else a

/-- Python `max(a, b)` on rationals (the second argument is returned only
when it is strictly larger). -/
def pyMax (a b : ℚ) : ℚ :=
  if a < b then b else a

/-- Python `float(text)` restricted to the plain decimal notation the
relevance completions use: optional surrounding whitespace, optional sign,
digits with an optional fractional part.  Returns `none` where Python
raises `ValueError`.  The value is assembled with `mkRat`, so
`digits.fraction` becomes `(sign * allDigits) / 10 ^ fractionLength`. -/
def pyFloat? (s : List Char) : Option ℚ :=
  let t := pyStrip s
  let signed : Int × List Char :=
    match t with
    | '-' :: r => (-1, r)
    | '+' :: r => (1, r)
    | _ => (1, t)
  let sgn := signed.1
  let t2 := signed.2
  let ip := t2.takeWhile Char.isDigit
  let rest := t2.dropWhile Char.isDigit
  match rest with
  | [] => if ip.isEmpty then none else some (mkRat (sgn * digitsVal ip) 1)
  | '.' :: r =>
    let fp := r.takeWhile Char.isDigit
    let rest2 := r.dropWhile Char.isDigit
    if !rest2.isEmpty then none
    else if ip.isEmpty && fp.isEmpty then none
    else some (mkRat (sgn * (digitsVal ip * 10 ^ fp.length + digitsVal fp)) (10 ^ fp.length))
  | _ => none

/-! ## Session history (`Chatbot.update_session_history`) -/

/-- The most recent `n` elements of a list (Python slice `l[-n:]`). -/
def lastN {α : Type} (n : Nat) (l : List α) : List α :=
  l.drop (l.length - n)

/-- `Chatbot.update_session_history`: append the `(user, ai)` pair, then
keep only the last 5 interactions. -/
def updateSessionHistory (history : List Turn) (userMessage aiMessage : String) : List Turn :=
  let h2 := history ++ [(userMessage, aiMessage)]
  if 5 < h2.length then lastN 5 h2 else h2

/-! ## Relevance-score parsing (`Chatbot._check_relevance`) -/

/-- The clamp-or-default step of the score parsing: a parsed value is
clamped to `[0, 1]` with `max(0.0, min(1.0, v))`; a `ValueError` defaults
to `0.5`. -/
def clampScore : Option ℚ → ℚ
  | some v => pyMax 0 (pyMin 1 v)
  | none => mkRat 1 2

/-- Score parsing from `Chatbot._check_relevance`: strip the completion,
take the last line when there are several, parse it as a float, clamp to
`[0, 1]`; default to `0.5` when the parse raises `ValueError`. -/
def parseRelevanceScore (response : String) : ℚ :=
  let cleaned := pyStrip response.toList
  let lastLine :=
    if cleaned.contains '\n' then (splitNewlines cleaned).getLastD []
    else cleaned
  clampScore (pyFloat? lastLine)

/-- The `common_queries` list from `Chatbot.__init__`. -/
def commonQueries : List String :=
  ["hi", "hello", "hey", "what\x27s up", "how are you", "greetings",
   "thanks", "thank you", "goodbye", "bye", "see you", "help",
   "what can you do", "who are you", "your name"]

/-- `Chatbot._is_common_query`: bidirectional substring match against the
fixed query list on the lowercased stripped question, or at most two
words. -/
def isCommonQuery (question : String) : Bool :=
  let ql := pyStrip (pyLower question.toList)
  commonQueries.any (fun q => pyIn q.toList ql || pyIn ql q.toList)
    || decide ((pyWords ql).length ≤ 2)

/-! ## External collaborators and relevance check -/

/-- One grounded source document returned by the RAG chain, carrying the
metadata the code reads (`doc_id` and `source`). -/
structure SourceDoc where
  docId : String
  source : String
deriving DecidableEq

/-- The RAG chain response: the answer text and the source documents. -/
structure RagResponse where
  answer : String
  sourceDocs : List SourceDoc
deriving DecidableEq

/-- Oracle values for the three LLM-backed collaborators used by
`generate_answer`: the relevance chain, the RAG chain, and the general
chain.  `Except.error` models the call raising an exception. -/
structure Env where
  relevanceResponse : Except String String
  ragResponse : Except String RagResponse
  generalResponse : Except String String

/-- `Chatbot._check_relevance`: returns the score and whether the
relevance LLM chain was actually invoked.  Common queries short-circuit
to `0.0` without a call; an exception from the chain is caught and
defaults to `0.5`; otherwise the completion is parsed. -/
def checkRelevance (env : Env) (question : String) : ℚ × Bool :=
  if isCommonQuery question then (0, false)
  else
    match env.relevanceResponse with
    | Except.ok response => (parseRelevanceScore response, true)
    | Except.error _ => (mkRat 1 2, true)

/-! ## History merge (`Chatbot._merge_histories`) -/

/-- One element of the externally supplied flat role-tagged history. -/
structure ChatMessage where
  role : String
  content : String
deriving DecidableEq

/-- The assistant content paired with a user message by the regrouping
loop.  Faithful to the source: the position of `msg` is recovered with
`provided_history.index(msg)`, which returns the index of the FIRST
message equal to `msg`. -/
def nextAiContent (ph : List ChatMessage) (msg : ChatMessage) : String :=
  let nextIndex := ph.findIdx (fun m => m == msg) + 1
  match ph.get? nextIndex with
  | some m2 => if m2.role = "assistant" then m2.content else ""
  | none => ""

/-- The `formatted_history` loop of `Chatbot._merge_histories`: one
`(user_content, ai_content)` pair per message with role `"user"`, in list
order. -/
def regroupHistory (ph : List ChatMessage) : List Turn :=
  (ph.filter (fun m => m.role == "user")).map (fun m => (m.content, nextAiContent ph m))

/-- The shared merge loop of `Chatbot._merge_histories`: walk the pairs,
skip those with an empty user message, and append each unseen pair while
recording it in the seen set.  Returns `(seen_pairs, merged_history)`. -/
def mergeLoop : List Turn → List Turn → List Turn → List Turn × List Turn
  | seen, acc, [] => (seen, acc)
  | seen, acc, p :: ps =>
    if p.1.isEmpty then mergeLoop seen acc ps
    else if p ∈ seen then mergeLoop seen acc ps
    else mergeLoop (p :: seen) (acc ++ [p]) ps

/-- `Chatbot._merge_histories`: regroup the provided history, then run the
merge loop over the session history followed by the regrouped history,
sharing one seen set. -/
def mergeHistories (sessionHistory : List Turn) (providedHistory : List ChatMessage) : List Turn :=
  let formatted := regroupHistory providedHistory
  let st := mergeLoop [] [] sessionHistory
  (mergeLoop st.1 st.2 formatted).2

/-- Keep-first de-duplication, stated the way the spec describes merge:
the first occurrence of a pair wins, later duplicates are dropped. -/
def dedupFirst : List Turn → List Turn
  | [] => []
  | p :: ps => p :: dedupFirst (ps.filter (fun q => decide (¬q = p)))
termination_by l => l.length
decreasing_by
  simp only [List.length_cons]
  exact Nat.lt_succ_of_le (List.length_filter_le _ _)

/-- The truncation in `Chatbot.generate_answer`: keep only the most
recent 5 merged interactions. -/
def recentOf (merged : List Turn) : List Turn :=
  if 5 < merged.length then lastN 5 merged else merged

/-- `Chatbot._format_conversation_history`. -/
def formatConversationHistory (history : List Turn) : String :=
  let out := history.foldl (fun acc t =>
    if !t.1.isEmpty && !t.2.isEmpty then
      acc ++ "User: " ++ t.1 ++ "\nAssistant: " ++ t.2 ++ "\n\n"
    else if !t.1.isEmpty then acc ++ "User: " ++ t.1 ++ "\n\n"
    else acc) ""
  String.mk (pyStrip out.toList)

/-! ## Document manager (`DocumentManager`) -/

/-- A registered document record; only the fields the rollback logic
reads are kept (`id`, plus content and source for concreteness). -/
structure DocRec where
  id : String
  content : String
  source : String
deriving DecidableEq

/-- `DocumentManager.add_document` with the generated id and the
vector-store upsert outcome made explicit: append the record, upsert the
chunks, and on failure roll back every record carrying the new id and
re-raise.  Returns the registry after the call and the outcome. -/
def addDocument (docs : List DocRec) (docId content source : String)
    (upsert : Except String Unit) : List DocRec × Except String String :=
  let doc : DocRec := ⟨docId, content, source⟩
  let docs2 := docs ++ [doc]
  match upsert with
  | Except.ok _ => (docs2, Except.ok docId)
  | Except.error e => (docs2.filter (fun d => decide (¬d.id = docId)), Except.error e)

/-- `DocumentManager.bulk_add_documents` with the generated records and
the batch upsert outcome made explicit: append every record, upsert all
chunks at once, and on failure roll back every record whose id belongs to
the batch and re-raise. -/
def bulkAddDocuments (docs : List DocRec) (newDocs : List DocRec)
    (upsert : Except String Unit) : List DocRec × Except String (List String) :=
  if newDocs.isEmpty then (docs, Except.ok [])
  else
    let docIds := newDocs.map DocRec.id
    let docs2 := docs ++ newDocs
    match upsert with
    | Except.ok _ => (docs2, Except.ok docIds)
    | Except.error e => (docs2.filter (fun d => decide (d.id ∉ docIds)), Except.error e)

/-! ## Answer generation (`Chatbot.generate_answer`) -/

/-- A source reference returned to the caller (`{"id": ..., "source": ...}`). -/
structure SourceRef where
  id : String
  source : String
deriving DecidableEq

/-- Source extraction from the RAG response: de-duplicate by `doc_id`,
keeping the first occurrence. -/
def extractSources : List SourceDoc → List String → List SourceRef
  | [], _ => []
  | d :: ds, seenIds =>
    if d.docId ∈ seenIds then extractSources ds seenIds
    else ⟨d.docId, d.source⟩ :: extractSources ds (d.docId :: seenIds)

/-- The synthetic answer string built in the exception handler of
`generate_answer`. -/
def errorMessage (e : String) : String :=
  "I\x27m sorry, there was an error processing your request: " ++ e

/-- The outcome of `generate_answer`: the returned `(answer, sources)`
pair, the session history for the session after the call, and which of
the two composing chains were invoked. -/
structure GenResult where
  answer : String
  sources : List SourceRef
  history : List Turn
  ragInvoked : Bool
  generalInvoked : Bool
deriving DecidableEq

/-- The general-knowledge branch of `generate_answer` (invocation of
`general_chain.run`), including the surrounding exception handler:
sources are cleared, the turn is recorded, an exception becomes the
synthetic error answer. -/
def runGeneral (env : Env) (sessionHistory : List Turn) (question : String)
    (ragInv : Bool) : GenResult :=
  match env.generalResponse with
  | Except.ok a => ⟨a, [], updateSessionHistory sessionHistory question a, ragInv, true⟩
  | Except.error e =>
    ⟨errorMessage e, [], updateSessionHistory sessionHistory question (errorMessage e),
      ragInv, true⟩

/-- The markers that make `generate_answer` reject a grounded answer. -/
def insufficientMarkers : List String :=
  ["I don\x27t have enough information", "don\x27t have specific information"]

/-- `Chatbot.generate_answer` for one session: merge histories, check
relevance, route between the RAG chain and the general chain behind the
`relevance_threshold = 0.75` gate and the non-empty document-store guard,
fall back to general knowledge on a rejected grounded answer, and catch
any exception from the composing chains into the synthetic error pair.
The formatted recent history only feeds the LLM oracles, so it is
computed but does not influence the modelled result. -/
def generateAnswer (env : Env) (docs : List DocRec) (sessionHistory : List Turn)
    (chatHistory : List ChatMessage) (question : String) : GenResult :=
  let merged := mergeHistories sessionHistory chatHistory
  let recent := recentOf merged
  let _historyText := formatConversationHistory recent
  let score := (checkRelevance env question).1
  let needsRag := decide (mkRat 3 4 ≤ score)
  let haveDocuments := decide (0 < docs.length)
  if needsRag && haveDocuments then
    match env.ragResponse with
    | Except.ok resp =>
      let sources := extractSources resp.sourceDocs []
      if !sources.isEmpty
          && !(pyIn "I don\x27t have enough information".toList resp.answer.toList)
          && !(pyIn "don\x27t have specific information".toList resp.answer.toList) then
        ⟨resp.answer, sources, updateSessionHistory sessionHistory question resp.answer,
          true, false⟩
      else runGeneral env sessionHistory question true
    | Except.error e =>
      ⟨errorMessage e, [], updateSessionHistory sessionHistory question (errorMessage e),
        true, false⟩
  else runGeneral env sessionHistory question false

/-! ## Helper lemmas -/

theorem lastN_of_length_le {α : Type} {n : Nat} {l : List α} (h : l.length ≤ n) :
    lastN n l = l := by
  unfold lastN
  rw [Nat.sub_eq_zero_of_le h, List.drop_zero]

theorem length_lastN_le {α : Type} (n : Nat) (l : List α) : (lastN n l).length ≤ n := by
  unfold lastN
  rw [List.length_drop]
  omega

theorem updateSessionHistory_eq_lastN (h : List Turn) (u a : String) :
    updateSessionHistory h u a = lastN 5 (h ++ [(u, a)]) := by
  unfold updateSessionHistory
  by_cases hl : 5 < (h ++ [(u, a)]).length
  · rw [if_pos hl]
  · rw [if_neg hl]
    exact (lastN_of_length_le (Nat.le_of_not_lt hl)).symm

theorem recentOf_eq_lastN (l : List Turn) : recentOf l = lastN 5 l := by
  unfold recentOf
  by_cases hl : 5 < l.length
  · rw [if_pos hl]
  · rw [if_neg hl]
    exact (lastN_of_length_le (Nat.le_of_not_lt hl)).symm

theorem clampScore_nonneg : ∀ o : Option ℚ, 0 ≤ clampScore o
  | none => by decide
  | some v => by
    show 0 ≤ pyMax 0 (pyMin 1 v)
    unfold pyMax pyMin
    split_ifs <;> linarith

theorem clampScore_le_one : ∀ o : Option ℚ, clampScore o ≤ 1
  | none => by decide
  | some v => by
    show pyMax 0 (pyMin 1 v) ≤ 1
    unfold pyMax pyMin
    split_ifs <;> linarith

theorem mergeLoop_append (l1 l2 seen acc : List Turn) :
    mergeLoop seen acc (l1 ++ l2)
      = mergeLoop (mergeLoop seen acc l1).1 (mergeLoop seen acc l1).2 l2 := by
  induction l1 generalizing seen acc with
  | nil => rfl
  | cons p ps ih =>
    by_cases hE : p.1.isEmpty
    · simp only [List.cons_append, mergeLoop, hE, if_true]
      exact ih seen acc
    · by_cases hS : p ∈ seen
      · simp only [List.cons_append, mergeLoop, hE, if_false, hS, if_true]
        exact ih seen acc
      · simp only [List.cons_append, mergeLoop, hE, if_false, hS]
        exact ih (p :: seen) (acc ++ [p])

theorem filter_notSeen_cons (p : Turn) (seen ps : List Turn) :
    (ps.filter (fun q => !q.1.isEmpty && decide (q ∉ seen))).filter
        (fun q => decide (¬q = p))
      = ps.filter (fun q => !q.1.isEmpty && decide (q ∉ p :: seen)) := by
  rw [List.filter_filter]
  apply List.filter_congr
  intro q _
  by_cases hqp : q = p
  · simp [hqp]
  · simp [hqp, List.mem_cons]

theorem mergeLoop_snd_eq (l : List Turn) : ∀ seen acc : List Turn,
    (mergeLoop seen acc l).2
      = acc ++ dedupFirst (l.filter (fun q => !q.1.isEmpty && decide (q ∉ seen))) := by
  induction l with
  | nil => intro seen acc; simp [mergeLoop, dedupFirst]
  | cons p ps ih =>
    intro seen acc
    simp only [mergeLoop, List.filter_cons]
    cases hE : p.1.isEmpty with
    | true =>
      rw [if_pos rfl]
      have hpred : (!true && decide (p ∉ seen)) = false := by simp
      rw [hpred, if_neg Bool.false_ne_true]
      exact ih seen acc
    | false =>
      rw [if_neg Bool.false_ne_true]
      by_cases hS : p ∈ seen
      · rw [if_pos hS]
        have hpred : (!false && decide (p ∉ seen)) = false := by simp [hS]
        rw [hpred, if_neg Bool.false_ne_true]
        exact ih seen acc
      · rw [if_neg hS]
        have hpred : (!false && decide (p ∉ seen)) = true := by simp [hS]
        rw [hpred, if_pos rfl]
        rw [ih (p :: seen) (acc ++ [p]), dedupFirst, filter_notSeen_cons]
        simp

theorem mergeLoop_snd_nodup (l : List Turn) : ∀ seen acc : List Turn,
    acc.Nodup → (∀ x ∈ acc, x ∈ seen) → ((mergeLoop seen acc l).2).Nodup := by
  induction l with
  | nil => intro seen acc hN _; exact hN
  | cons p ps ih =>
    intro seen acc hN hSub
    by_cases hE : p.1.isEmpty
    · simp only [mergeLoop, hE, if_true]
      exact ih seen acc hN hSub
    · by_cases hS : p ∈ seen
      · simp only [mergeLoop, hE, if_false, hS, if_true]
        exact ih seen acc hN hSub
      · simp only [mergeLoop, hE, if_false, hS]
        apply ih (p :: seen) (acc ++ [p])
        · rw [List.nodup_append]
          refine ⟨hN, List.nodup_singleton p, ?_⟩
          intro x hx hx1
          rw [List.mem_singleton] at hx1
          exact hS (hx1 ▸ hSub x hx)
        · intro x hx
          rcases List.mem_append.mp hx with hxa | hxp
          · exact List.mem_cons_of_mem p (hSub x hxa)
          · rw [List.mem_singleton] at hxp
            exact hxp ▸ List.mem_cons_self p seen

theorem mergeHistories_eq (sh : List Turn) (ph : List ChatMessage) :
    mergeHistories sh ph
      = dedupFirst ((sh ++ regroupHistory ph).filter (fun q => !q.1.isEmpty)) := by
  show (mergeLoop (mergeLoop [] [] sh).1 (mergeLoop [] [] sh).2 (regroupHistory ph)).2
    = dedupFirst ((sh ++ regroupHistory ph).filter (fun q => !q.1.isEmpty))
  rw [← mergeLoop_append, mergeLoop_snd_eq]
  have hpred : ((sh ++ regroupHistory ph).filter
        (fun q => !q.1.isEmpty && decide (q ∉ ([] : List Turn))))
      = (sh ++ regroupHistory ph).filter (fun q => !q.1.isEmpty) := by
    apply List.filter_congr
    intro q _
    simp
  rw [hpred, List.nil_append]

theorem mergeHistories_nodup (sh : List Turn) (ph : List ChatMessage) :
    (mergeHistories sh ph).Nodup := by
  show ((mergeLoop (mergeLoop [] [] sh).1 (mergeLoop [] [] sh).2 (regroupHistory ph)).2).Nodup
  rw [← mergeLoop_append]
  exact mergeLoop_snd_nodup _ _ _ List.nodup_nil (by intro x hx; cases hx)

theorem dedupFirst_eq_self_of_nodup (l : List Turn) (h : l.Nodup) : dedupFirst l = l := by
  induction l with
  | nil => rw [dedupFirst]
  | cons p ps ih =>
    rw [List.nodup_cons] at h
    have hf : ps.filter (fun q => decide (¬q = p)) = ps := by
      apply List.filter_eq_self.mpr
      intro q hq
      simp only [decide_eq_true_eq]
      intro hqp
      exact h.1 (hqp ▸ hq)
    rw [dedupFirst, hf, ih h.2]

/-! ## Claim theorems: history merge -/

/-- C3: the merged history never contains a duplicate `(user, ai)` pair,
even when the same pair occurs in both inputs: the merge equals keep-first
de-duplication of the server history followed by the regrouped external
history (restricted, as in the code, to pairs with a non-empty user
message), so the first occurrence wins and later duplicates are
dropped. -/
theorem mergeHistories_dedup (sh : List Turn) (ph : List ChatMessage) :
    mergeHistories sh ph
        = dedupFirst ((sh ++ regroupHistory ph).filter (fun q => !q.1.isEmpty))
      ∧ (mergeHistories sh ph).Nodup :=
  ⟨mergeHistories_eq sh ph, mergeHistories_nodup sh ph⟩

/-- C4 counterexample: merging with an empty external history is NOT a
pure truncation no-op for every server history — a server history that
already contains a duplicate pair loses the duplicate. -/
theorem mergeHistories_empty_not_noop :
    ¬recentOf (mergeHistories [("a", "b"), ("a", "b")] [])
      = lastN 5 [("a", "b"), ("a", "b")] := by
  decide

/-- C4 (amended): for every server history whose turns are pairwise
distinct and all carry a non-empty user message, merging with an empty
external history followed by the recency cut of `generate_answer` returns
exactly the history truncated to the most recent 5 turns, order
unchanged. -/
theorem mergeHistories_empty_noop (h : List Turn) (hnd : h.Nodup)
    (hne : ∀ p ∈ h, ¬p.1 = "") :
    recentOf (mergeHistories h []) = lastN 5 h := by
  have h1 : mergeHistories h [] = dedupFirst (h.filter (fun q => !q.1.isEmpty)) := by
    have := mergeHistories_eq h []
    simpa [regroupHistory] using this
  have h2 : h.filter (fun q => !q.1.isEmpty) = h := by
    apply List.filter_eq_self.mpr
    intro q hq
    have hq1 : ¬q.1.isEmpty = true :=
      fun hcontra => hne q hq ((String.isEmpty_iff q.1).mp hcontra)
    simp [hq1]
  rw [h1, h2, dedupFirst_eq_self_of_nodup h hnd, recentOf_eq_lastN]

theorem mergeHistories_empty_noop_witness :
    recentOf (mergeHistories [("a", "b"), ("c", "d")] [])
      = lastN 5 [("a", "b"), ("c", "d")] :=
  mergeHistories_empty_noop [("a", "b"), ("c", "d")] (by decide) (by decide)

/-- C5: the regrouping loop recovers the position of each user message
with `provided_history.index(msg)`, which returns the FIRST equal
message; with a repeated user message both occurrences are paired with
the assistant reply that follows the first occurrence, not with the
message immediately following each occurrence.  The code comment says it
checks "the next message", so the claim describes the intent and the code
slips. -/
theorem regroupHistory_duplicate_pairing_bug :
    regroupHistory
        [⟨"user", "q"⟩, ⟨"assistant", "a1"⟩, ⟨"user", "q"⟩, ⟨"assistant", "a2"⟩]
        = [("q", "a1"), ("q", "a1")]
      ∧ [("q", "a1"), ("q", "a1")] ≠ [("q", "a1"), ("q", "a2")] := by
  decide

/-! ## Claim theorems: session history and score parsing -/

/-- C6: `update_session_history` appends the new `(user, ai)` turn at the
end and truncates to the most recent 5 turns, dropping the oldest first;
the resulting history length is always at most 5, and 7 appends starting
from an empty history leave exactly the 5 most recent turns. -/
theorem updateSessionHistory_truncates (h : List Turn) (u a : String)
    (t1 t2 t3 t4 t5 t6 t7 : Turn) :
    updateSessionHistory h u a = lastN 5 (h ++ [(u, a)])
      ∧ (updateSessionHistory h u a).length ≤ 5
      ∧ List.foldl (fun acc t => updateSessionHistory acc t.1 t.2) []
          [t1, t2, t3, t4, t5, t6, t7] = [t3, t4, t5, t6, t7] := by
  refine ⟨updateSessionHistory_eq_lastN h u a, ?_, ?_⟩
  · rw [updateSessionHistory_eq_lastN]
    exact length_lastN_le 5 (h ++ [(u, a)])
  · simp [updateSessionHistory, lastN]

/-- C7: relevance-score parsing takes the last line of the stripped
completion, parses it as a number, and clamps to `[0, 1]`, defaulting to
`0.5` on parse failure: `"blah\n0.73"` gives `0.73`, `"not a number"`
gives `0.5`, `"1.4"` is clamped to `1.0`, and every parsed score lies in
`[0, 1]`. -/
theorem parseRelevanceScore_policy :
    parseRelevanceScore "blah\n0.73" = 73 / 100
      ∧ parseRelevanceScore "not a number" = 1 / 2
      ∧ parseRelevanceScore "1.4" = 1
      ∧ ∀ s : String, 0 ≤ parseRelevanceScore s ∧ parseRelevanceScore s ≤ 1 := by
  refine ⟨?_, ?_, by decide, ?_⟩
  · have h : parseRelevanceScore "blah\n0.73" = mkRat 73 100 := by decide
    rw [h, Rat.mkRat_eq_div]
    norm_num
  · have h : parseRelevanceScore "not a number" = mkRat 1 2 := by decide
    rw [h, Rat.mkRat_eq_div]
    norm_num
  · intro s
    unfold parseRelevanceScore
    exact ⟨clampScore_nonneg _, clampScore_le_one _⟩

/-! ## Helper lemmas about the answer-generation branches -/

theorem runGeneral_sources (env : Env) (sh : List Turn) (q : String) (b : Bool) :
    (runGeneral env sh q b).sources = [] := by
  unfold runGeneral
  cases env.generalResponse <;> rfl

theorem runGeneral_generalInvoked (env : Env) (sh : List Turn) (q : String) (b : Bool) :
    (runGeneral env sh q b).generalInvoked = true := by
  unfold runGeneral
  cases env.generalResponse <;> rfl

theorem runGeneral_ragInvoked (env : Env) (sh : List Turn) (q : String) (b : Bool) :
    (runGeneral env sh q b).ragInvoked = b := by
  unfold runGeneral
  cases env.generalResponse <;> rfl

theorem runGeneral_of_error (env : Env) (sh : List Turn) (q e : String) (b : Bool)
    (h : env.generalResponse = Except.error e) :
    runGeneral env sh q b
      = ⟨errorMessage e, [], updateSessionHistory sh q (errorMessage e), b, true⟩ := by
  unfold runGeneral
  rw [h]

theorem generateAnswer_of_not_gate (env : Env) (docs : List DocRec) (sh : List Turn)
    (ch : List ChatMessage) (q : String)
    (h : ¬(mkRat 3 4 ≤ (checkRelevance env q).1 ∧ 0 < docs.length)) :
    generateAnswer env docs sh ch q = runGeneral env sh q false := by
  have hc : ¬((decide (mkRat 3 4 ≤ (checkRelevance env q).1)
      && decide (0 < docs.length)) = true) := by
    simp only [Bool.and_eq_true, decide_eq_true_eq]
    exact fun hcontra => h hcontra
  simp only [generateAnswer]
  rw [if_neg hc]

theorem generateAnswer_of_gate_ragError (env : Env) (docs : List DocRec) (sh : List Turn)
    (ch : List ChatMessage) (q e : String)
    (hgate : mkRat 3 4 ≤ (checkRelevance env q).1 ∧ 0 < docs.length)
    (hrag : env.ragResponse = Except.error e) :
    generateAnswer env docs sh ch q
      = ⟨errorMessage e, [], updateSessionHistory sh q (errorMessage e), true, false⟩ := by
  have hc : (decide (mkRat 3 4 ≤ (checkRelevance env q).1)
      && decide (0 < docs.length)) = true := by
    simp only [Bool.and_eq_true, decide_eq_true_eq]
    exact hgate
  simp only [generateAnswer]
  rw [if_pos hc, hrag]

theorem generateAnswer_of_gate_ragOk (env : Env) (docs : List DocRec) (sh : List Turn)
    (ch : List ChatMessage) (q : String) (resp : RagResponse)
    (hgate : mkRat 3 4 ≤ (checkRelevance env q).1 ∧ 0 < docs.length)
    (hrag : env.ragResponse = Except.ok resp) :
    generateAnswer env docs sh ch q
      = (if (!(extractSources resp.sourceDocs []).isEmpty
            && !(pyIn "I don\x27t have enough information".toList resp.answer.toList)
            && !(pyIn "don\x27t have specific information".toList resp.answer.toList)) = true
        then ⟨resp.answer, extractSources resp.sourceDocs [],
              updateSessionHistory sh q resp.answer, true, false⟩
        else runGeneral env sh q true) := by
  have hc : (decide (mkRat 3 4 ≤ (checkRelevance env q).1)
      && decide (0 < docs.length)) = true := by
    simp only [Bool.and_eq_true, decide_eq_true_eq]
    exact hgate
  simp only [generateAnswer]
  rw [if_pos hc, hrag]

theorem generateAnswer_ragInvoked_of_gate (env : Env) (docs : List DocRec) (sh : List Turn)
    (ch : List ChatMessage) (q : String)
    (hgate : mkRat 3 4 ≤ (checkRelevance env q).1 ∧ 0 < docs.length) :
    (generateAnswer env docs sh ch q).ragInvoked = true := by
  cases hrag : env.ragResponse with
  | ok resp =>
    rw [generateAnswer_of_gate_ragOk env docs sh ch q resp hgate hrag]
    split
    · rfl
    · exact runGeneral_ragInvoked env sh q true
  | error e =>
    rw [generateAnswer_of_gate_ragError env docs sh ch q e hgate hrag]

theorem mkRat_three_four : mkRat 3 4 = (3 : ℚ) / 4 := by
  rw [Rat.mkRat_eq_div]
  norm_num

/-! ## Claim theorems: answer generation -/

/-- C1: with zero registered documents, `generate_answer` never invokes
the RAG chain; the answer is composed via the general-knowledge path and
the returned sources list is empty. -/
theorem generateAnswer_no_docs_general_path (env : Env) (sh : List Turn)
    (ch : List ChatMessage) (q : String) :
    (generateAnswer env [] sh ch q).ragInvoked = false
      ∧ (generateAnswer env [] sh ch q).generalInvoked = true
      ∧ (generateAnswer env [] sh ch q).sources = [] := by
  have hgen : generateAnswer env [] sh ch q = runGeneral env sh q false :=
    generateAnswer_of_not_gate env [] sh ch q (fun hcontra => by
      have := hcontra.2
      simp at this)
  rw [hgen]
  exact ⟨runGeneral_ragInvoked env sh q false, runGeneral_generalInvoked env sh q false,
    runGeneral_sources env sh q false⟩

/-- C2 counterexample: an LLM call inside `generate_answer` (the
relevance chain) raises, yet the returned answer is the ordinary general
answer, not the synthetic error string: the relevance exception is
swallowed inside `_check_relevance` as a `0.5` score. -/
theorem generateAnswer_relevance_error_swallowed :
    generateAnswer
        ⟨Except.error "boom", Except.ok ⟨"ans", []⟩, Except.ok "General answer"⟩
        [] [] [] "compare bond and equity returns over decades"
      = ⟨"General answer", [],
          [("compare bond and equity returns over decades", "General answer")], false, true⟩
      ∧ "General answer" ≠ errorMessage "boom" := by
  exact ⟨by decide, by decide⟩

/-- C2 (amended): if the LLM call of a composing chain — the RAG chain or
the general chain — raises while it is invoked, `generate_answer` does
not propagate the exception: it returns the synthetic error string with
an empty sources list, and the `(question, error string)` turn is still
appended to the session history. -/
theorem generateAnswer_compose_error_caught (env : Env) (docs : List DocRec)
    (sh : List Turn) (ch : List ChatMessage) (q e : String) :
    (env.ragResponse = Except.error e →
        (generateAnswer env docs sh ch q).ragInvoked = true →
        generateAnswer env docs sh ch q
          = ⟨errorMessage e, [], updateSessionHistory sh q (errorMessage e), true, false⟩)
      ∧ (env.generalResponse = Except.error e →
          (generateAnswer env docs sh ch q).generalInvoked = true →
          (generateAnswer env docs sh ch q).answer = errorMessage e
            ∧ (generateAnswer env docs sh ch q).sources = []
            ∧ (generateAnswer env docs sh ch q).history
                = updateSessionHistory sh q (errorMessage e)) := by
  by_cases hgate : mkRat 3 4 ≤ (checkRelevance env q).1 ∧ 0 < docs.length
  · constructor
    · intro hrag _
      exact generateAnswer_of_gate_ragError env docs sh ch q e hgate hrag
    · intro hg hinv
      cases hrag : env.ragResponse with
      | error e2 =>
        rw [generateAnswer_of_gate_ragError env docs sh ch q e2 hgate hrag] at hinv
        simp at hinv
      | ok resp =>
        rw [generateAnswer_of_gate_ragOk env docs sh ch q resp hgate hrag] at hinv ⊢
        by_cases hgood : (!(extractSources resp.sourceDocs []).isEmpty
            && !(pyIn "I don\x27t have enough information".toList resp.answer.toList)
            && !(pyIn "don\x27t have specific information".toList resp.answer.toList)) = true
        · rw [if_pos hgood] at hinv
          simp at hinv
        · rw [if_neg hgood]
          rw [runGeneral_of_error env sh q e true hg]
          exact ⟨rfl, rfl, rfl⟩
  · constructor
    · intro _ hinv
      rw [generateAnswer_of_not_gate env docs sh ch q hgate, runGeneral_ragInvoked] at hinv
      exact Bool.noConfusion hinv
    · intro hg _
      rw [generateAnswer_of_not_gate env docs sh ch q hgate,
        runGeneral_of_error env sh q e false hg]
      exact ⟨rfl, rfl, rfl⟩

theorem generateAnswer_compose_error_caught_witness :
    (generateAnswer ⟨Except.ok "0.9", Except.ok ⟨"irrelevant", []⟩, Except.error "boom"⟩
        [] [] [] "hi").answer = errorMessage "boom"
      ∧ (generateAnswer ⟨Except.ok "0.9", Except.ok ⟨"irrelevant", []⟩, Except.error "boom"⟩
          [] [] [] "hi").sources = []
      ∧ (generateAnswer ⟨Except.ok "0.9", Except.ok ⟨"irrelevant", []⟩, Except.error "boom"⟩
          [] [] [] "hi").history
        = updateSessionHistory [] "hi" (errorMessage "boom") :=
  (generateAnswer_compose_error_caught
      ⟨Except.ok "0.9", Except.ok ⟨"irrelevant", []⟩, Except.error "boom"⟩
      [] [] [] "hi" "boom").2 rfl (by decide)

/-- C9: the grounded path is gated by the hardcoded threshold `0.75`:
whenever the RAG chain is invoked the relevance score is at least `3/4`,
and whenever the score is below `3/4` the general-knowledge path is taken
with empty sources, regardless of the document store. -/
theorem generateAnswer_threshold_gate (env : Env) (docs : List DocRec) (sh : List Turn)
    (ch : List ChatMessage) (q : String) :
    ((generateAnswer env docs sh ch q).ragInvoked = true →
        (3 : ℚ) / 4 ≤ (checkRelevance env q).1)
      ∧ ((checkRelevance env q).1 < (3 : ℚ) / 4 →
          (generateAnswer env docs sh ch q).ragInvoked = false
            ∧ (generateAnswer env docs sh ch q).sources = []
            ∧ (generateAnswer env docs sh ch q).generalInvoked = true) := by
  constructor
  · intro hinv
    by_cases hgate : mkRat 3 4 ≤ (checkRelevance env q).1 ∧ 0 < docs.length
    · rw [← mkRat_three_four]
      exact hgate.1
    · rw [generateAnswer_of_not_gate env docs sh ch q hgate, runGeneral_ragInvoked] at hinv
      exact Bool.noConfusion hinv
  · intro hlt
    have hgate : ¬(mkRat 3 4 ≤ (checkRelevance env q).1 ∧ 0 < docs.length) := by
      rw [mkRat_three_four]
      exact fun hcontra => absurd hcontra.1 (not_le.mpr hlt)
    rw [generateAnswer_of_not_gate env docs sh ch q hgate]
    exact ⟨runGeneral_ragInvoked env sh q false, runGeneral_sources env sh q false,
      runGeneral_generalInvoked env sh q false⟩

theorem generateAnswer_threshold_gate_witness :
    (generateAnswer ⟨Except.ok "0.3", Except.ok ⟨"ans", [⟨"d1", "s1"⟩]⟩, Except.ok "G"⟩
        [⟨"d1", "c", "s"⟩] [] [] "how have commodity markets performed").ragInvoked = false
      ∧ (generateAnswer ⟨Except.ok "0.3", Except.ok ⟨"ans", [⟨"d1", "s1"⟩]⟩, Except.ok "G"⟩
          [⟨"d1", "c", "s"⟩] [] [] "how have commodity markets performed").sources = []
      ∧ (generateAnswer ⟨Except.ok "0.3", Except.ok ⟨"ans", [⟨"d1", "s1"⟩]⟩, Except.ok "G"⟩
          [⟨"d1", "c", "s"⟩] [] []
          "how have commodity markets performed").generalInvoked = true :=
  (generateAnswer_threshold_gate
      ⟨Except.ok "0.3", Except.ok ⟨"ans", [⟨"d1", "s1"⟩]⟩, Except.ok "G"⟩
      [⟨"d1", "c", "s"⟩] [] [] "how have commodity markets performed").2 (by
    have h : (checkRelevance
        ⟨Except.ok "0.3", Except.ok ⟨"ans", [⟨"d1", "s1"⟩]⟩, Except.ok "G"⟩
        "how have commodity markets performed").1 = mkRat 3 10 := by decide
    rw [h, Rat.mkRat_eq_div]
    norm_num)

/-- C10: the common-query short-circuit is a bidirectional substring
match: whenever the lowercased stripped question contains one of the
fixed filler phrases as a substring, or is itself a substring of such a
phrase, or has at most two words, `_check_relevance` returns `0.0`
without invoking the relevance LLM chain — including multi-word
substantive questions that merely contain a filler phrase inside another
word. -/
theorem checkRelevance_common_query_gate (env : Env) (q : String)
    (h : (∃ cq ∈ commonQueries,
            pyIn cq.toList (pyStrip (pyLower q.toList)) = true
            ∨ pyIn (pyStrip (pyLower q.toList)) cq.toList = true)
        ∨ (pyWords (pyStrip (pyLower q.toList))).length ≤ 2) :
    checkRelevance env q = (0, false) := by
  have hcommon : isCommonQuery q = true := by
    simp only [isCommonQuery, Bool.or_eq_true, List.any_eq_true, decide_eq_true_eq]
    rcases h with ⟨cq, hmem, hsub⟩ | hwords
    · exact Or.inl ⟨cq, hmem, hsub⟩
    · exact Or.inr hwords
  simp only [checkRelevance]
  rw [if_pos hcommon]

theorem checkRelevance_common_query_gate_witness :
    checkRelevance ⟨Except.ok "0.9", Except.ok ⟨"a", []⟩, Except.ok "G"⟩
        "What is this chart telling investors about risk" = (0, false) :=
  checkRelevance_common_query_gate
    ⟨Except.ok "0.9", Except.ok ⟨"a", []⟩, Except.ok "G"⟩
    "What is this chart telling investors about risk"
    (Or.inl ⟨"hi", by decide, Or.inl (by decide)⟩)

/-! ## Claim theorems: document registry rollback -/

/-- C8: when the vector-store upsert raises, `add_document` and
`bulk_add_documents` restore the in-memory registry to its state before
the call — for the bulk case the whole batch is rolled back — and the
failure is propagated to the caller.  Freshness of the generated ids
(guaranteed by `generate_id`) is an explicit hypothesis here. -/
theorem rollback_on_upsert_failure :
    (∀ (docs : List DocRec) (docId content source e : String),
        docId ∉ docs.map DocRec.id →
        addDocument docs docId content source (Except.error e) = (docs, Except.error e))
      ∧ (∀ (docs newDocs : List DocRec) (e : String),
          newDocs ≠ [] →
          (∀ d ∈ docs, d.id ∉ newDocs.map DocRec.id) →
          bulkAddDocuments docs newDocs (Except.error e) = (docs, Except.error e)) := by
  constructor
  · intro docs docId content source e hfresh
    unfold addDocument
    have hfil : (docs ++ [(⟨docId, content, source⟩ : DocRec)]).filter
        (fun d => decide (¬d.id = docId)) = docs := by
      rw [List.filter_append]
      have h1 : docs.filter (fun d => decide (¬d.id = docId)) = docs := by
        apply List.filter_eq_self.mpr
        intro d hd
        simp only [decide_eq_true_eq]
        exact fun hEq => hfresh (hEq ▸ List.mem_map_of_mem DocRec.id hd)
      have h2 : ([(⟨docId, content, source⟩ : DocRec)]).filter
          (fun d => decide (¬d.id = docId)) = [] := by
        simp
      rw [h1, h2, List.append_nil]
    simp only [hfil]
  · intro docs newDocs e hnonempty hfresh
    unfold bulkAddDocuments
    rw [if_neg (by simp [hnonempty])]
    have hfil : (docs ++ newDocs).filter
        (fun d => decide (d.id ∉ newDocs.map DocRec.id)) = docs := by
      rw [List.filter_append]
      have h1 : docs.filter (fun d => decide (d.id ∉ newDocs.map DocRec.id)) = docs := by
        apply List.filter_eq_self.mpr
        intro d hd
        simp only [decide_eq_true_eq]
        exact hfresh d hd
      have h2 : newDocs.filter (fun d => decide (d.id ∉ newDocs.map DocRec.id)) = [] := by
        apply List.filter_eq_nil_iff.mpr
        intro d hd
        simp only [decide_eq_true_eq, not_not]
        exact List.mem_map_of_mem DocRec.id hd
      rw [h1, h2, List.append_nil]
    simp only [hfil]

theorem rollback_on_upsert_failure_witness :
    addDocument [⟨"d1", "c", "s"⟩] "d2" "x" "y" (Except.error "fail")
        = ([⟨"d1", "c", "s"⟩], Except.error "fail")
      ∧ bulkAddDocuments [⟨"d1", "c", "s"⟩] [⟨"d2", "x", "y"⟩, ⟨"d3", "x", "y"⟩]
          (Except.error "fail")
        = ([⟨"d1", "c", "s"⟩], Except.error "fail") :=
  ⟨rollback_on_upsert_failure.1 [⟨"d1", "c", "s"⟩] "d2" "x" "y" "fail" (by decide),
   rollback_on_upsert_failure.2 [⟨"d1", "c", "s"⟩] [⟨"d2", "x", "y"⟩, ⟨"d3", "x", "y"⟩]
     "fail" (by decide) (by decide)⟩

end SChatbot
